import Mathlib

/-!
Verification of the AquariumManager simulation engine (`app/simulation.py`,
`app/database.py`, `app/models.py`) against its specification.

Modelling conventions:
* Python floats are modelled as real numbers (`ℝ`); `math.exp` is `Real.exp`.
* Timestamps and durations are measured in minutes and modelled as rationals
  (`ℚ`); `datetime.now(timezone.utc)` becomes an explicit `now : ℚ` argument,
  and `timedelta(minutes=k)` is the rational `k`.
* The in-memory dictionaries of the engine, `_fish`/`_tasks` (keyed by aquarium id,
  with `.get(id, [])` lookups) are modelled as total functions
  `Nat → List Fish` / `Nat → List Task` defaulting to `[]`.
* Store writes performed by an operation are recorded as an explicit list of
  `StoreOp` events returned alongside the new engine state; database-assigned
  row ids become explicit `newId` arguments.
-/

namespace Aqua

/-- The `Aquarium` dataclass of `app/models.py`. -/
structure Aquarium where
  id : Option Nat
  name : String
  target_temperature : ℝ
  current_temperature : ℝ
  cleanliness : ℝ
  last_cleaned_at : ℚ

/-- The `Fish` dataclass of `app/models.py`. -/
structure Fish where
  id : Option Nat
  aquarium_id : Nat
  name : String
  species : String
  hunger : ℝ
  health : ℝ
  created_at : ℚ

/-- The `Task` dataclass of `app/models.py`. -/
structure Task where
  id : Option Nat
  aquarium_id : Nat
  kind : String
  interval_minutes : ℤ
  last_run_at : ℚ

/-- A write issued to the `Database` layer (`app/database.py`). -/
inductive StoreOp where
  | insertFish (f : Fish)
  | updateFish (fishes : List Fish)
  | upsertAquarium (a : Aquarium)
  | setAquariumCleaned (aquarium_id : Nat) (timestamp : ℚ)
  | upsertTask (t : Task)
  | updateTaskTimestamp (task_id : Nat) (timestamp : ℚ)

/-- In-memory state of `SimulationEngine`: the cached aquarium list, the
fish and task caches keyed by aquarium id, and `_last_tick`. -/
structure Engine where
  aquariums : List Aquarium
  fish : Nat → List Fish
  tasks : Nat → List Task
  last_tick : ℚ

/-- Per-aquarium part of `SimulationEngine.tick` (lines 52-54): exponential
temperature approach and linear cleanliness decay. -/
noncomputable def tickAquarium (minutes : ℝ) (a : Aquarium) : Aquarium :=
  { a with
    current_temperature := a.current_temperature +
      (a.target_temperature - a.current_temperature) * (1 - Real.exp (-minutes / 18)),
    cleanliness := max 0 (a.cleanliness - minutes * 0.18) }

/-- Per-fish part of `SimulationEngine.tick` (lines 56-66), applied with the
already-updated aquarium `a`: hunger growth capped at 100, then the health
penalty from the three stressors, clamped to [10, 100]. -/
noncomputable def tickFish (minutes : ℝ) (a : Aquarium) (f : Fish) : Fish :=
  let hunger := min 100 (f.hunger + minutes * 0.45)
  let penalty1 := if hunger > 70 then (hunger - 70) * 0.02 * minutes else 0
  let temperature_gap := |a.current_temperature - a.target_temperature|
  let penalty2 := if temperature_gap > 2.5 then (temperature_gap - 2.5) * 0.5 * minutes else 0
  let penalty3 := if a.cleanliness < 40 then (40 - a.cleanliness) * 0.01 * minutes else 0
  { f with
    hunger := hunger,
    health := max 10 (min 100 (f.health - (penalty1 + penalty2 + penalty3))) }

/-- The aquarium loop of `SimulationEngine.tick` (lines 49-68): aquariums with
`id = None` are skipped; each identified aquarium is updated, its cached fish
are updated in place, and `update_fish`/`upsert_aquarium` writes are issued. -/
noncomputable def tickAquariums (minutes : ℝ) :
    List Aquarium → (Nat → List Fish) → List Aquarium × (Nat → List Fish) × List StoreOp
  | [], fm => ([], fm, [])
  | a :: rest, fm =>
    match a.id with
    | none =>
      let r := tickAquariums minutes rest fm
      (a :: r.1, r.2.1, r.2.2)
    | some i =>
      let a' := tickAquarium minutes a
      let fishes' := (fm i).map (tickFish minutes a')
      let r := tickAquariums minutes rest (Function.update fm i fishes')
      (a' :: r.1, r.2.1, StoreOp.updateFish fishes' :: StoreOp.upsertAquarium a' :: r.2.2)

/-- Embedding of `SimulationEngine.tick` (lines 43-69). `now` is the current wall-clock
time in minutes; the elapsed-time guard returns with no state change and no
store write when `now - last_tick ≤ 0`. -/
noncomputable def tick (now : ℚ) (e : Engine) : Engine × List StoreOp :=
  if now - e.last_tick ≤ 0 then (e, [])
  else
    let minutes : ℝ := ((now - e.last_tick : ℚ) : ℝ)
    let r := tickAquariums minutes e.aquariums e.fish
    ({ aquariums := r.1, fish := r.2.1, tasks := e.tasks, last_tick := now }, r.2.2)

/-- Embedding of `SimulationEngine.feed_fish` (lines 71-80): every cached fish of the
aquarium has hunger lowered by 45 (floored at 0) and health raised by 8
(capped at 100); the batch is persisted only when non-empty. -/
noncomputable def feed_fish (aquarium_id : Nat) (e : Engine) : Engine × List StoreOp :=
  let updated := (e.fish aquarium_id).map fun f =>
    { f with hunger := max 0 (f.hunger - 45), health := min 100 (f.health + 8) }
  if updated.isEmpty then (e, [])
  else ({ e with fish := Function.update e.fish aquarium_id updated },
        [StoreOp.updateFish updated])

/-- The `for ... if aquarium.id == aquarium_id: ...; break` pattern used by
`clean_aquarium`, `adjust_temperature` and `register_temperature`: replace the
first aquarium matching the predicate by `g` of it, reporting the replacement
if one happened. -/
def updateFirst (p : Aquarium → Bool) (g : Aquarium → Aquarium) :
    List Aquarium → List Aquarium × Option Aquarium
  | [] => ([], none)
  | a :: rest =>
    if p a then (g a :: rest, some (g a))
    else
      let r := updateFirst p g rest
      (a :: r.1, r.2)

/-- Embedding of `SimulationEngine.clean_aquarium` (lines 82-89): the first cached aquarium
with the given id gets cleanliness 100 and last-cleaned `now`, and a
`set_aquarium_cleaned` write is issued; no match means no change. -/
noncomputable def clean_aquarium (aquarium_id : Nat) (now : ℚ) (e : Engine) :
    Engine × List StoreOp :=
  let r := updateFirst (fun a => a.id = some aquarium_id)
    (fun a => { a with cleanliness := 100, last_cleaned_at := now }) e.aquariums
  ({ e with aquariums := r.1 },
   match r.2 with
   | none => []
   | some _ => [StoreOp.setAquariumCleaned aquarium_id now])

/-- Embedding of `SimulationEngine.adjust_temperature` (lines 91-96): retargets the first
matching cached aquarium and upserts it; no match means no change. -/
noncomputable def adjust_temperature (aquarium_id : Nat) (target_temperature : ℝ)
    (e : Engine) : Engine × List StoreOp :=
  let r := updateFirst (fun a => a.id = some aquarium_id)
    (fun a => { a with target_temperature := target_temperature }) e.aquariums
  ({ e with aquariums := r.1 },
   match r.2 with
   | none => []
   | some a' => [StoreOp.upsertAquarium a'])

/-- Embedding of `SimulationEngine.register_temperature` (lines 102-107): overwrites the
current temperature of the first matching cached aquarium and upserts it; no
match means no change. -/
noncomputable def register_temperature (aquarium_id : Nat) (current_temperature : ℝ)
    (e : Engine) : Engine × List StoreOp :=
  let r := updateFirst (fun a => a.id = some aquarium_id)
    (fun a => { a with current_temperature := current_temperature }) e.aquariums
  ({ e with aquariums := r.1 },
   match r.2 with
   | none => []
   | some a' => [StoreOp.upsertAquarium a'])

/-- Embedding of `SimulationEngine.create_aquarium` (lines 109-125); `newId` is the row id
assigned by the database insert. -/
noncomputable def create_aquarium (name : String) (target_temperature : ℝ) (now : ℚ)
    (newId : Nat) (e : Engine) : Engine × Aquarium × List StoreOp :=
  let stored : Aquarium :=
    { id := some newId, name := name, target_temperature := target_temperature,
      current_temperature := target_temperature, cleanliness := 90, last_cleaned_at := now }
  ({ aquariums := e.aquariums ++ [stored],
     fish := Function.update e.fish newId [],
     tasks := Function.update e.tasks newId [],
     last_tick := e.last_tick },
   stored,
   [StoreOp.upsertAquarium { stored with id := none }])

/-- Embedding of `SimulationEngine.create_fish` (lines 127-144); `newId` is the row id
assigned by the database insert. -/
noncomputable def create_fish (aquarium_id : Nat) (name : String) (species : String)
    (now : ℚ) (newId : Nat) (e : Engine) : Engine × Fish × List StoreOp :=
  let stored : Fish :=
    { id := some newId, aquarium_id := aquarium_id, name := name, species := species,
      hunger := 35, health := 95, created_at := now }
  ({ e with fish := Function.update e.fish aquarium_id (e.fish aquarium_id ++ [stored]) },
   stored,
   [StoreOp.insertFish { stored with id := none }])

/-- Embedding of `SimulationEngine.add_task` (lines 151-160): the last-run
timestamp of the new task is backdated by its interval; `newId` is the assigned row id. -/
def add_task (aquarium_id : Nat) (kind : String) (interval_minutes : ℤ) (now : ℚ)
    (newId : Nat) (e : Engine) : Engine × Task × List StoreOp :=
  let stored : Task :=
    { id := some newId, aquarium_id := aquarium_id, kind := kind,
      interval_minutes := interval_minutes,
      last_run_at := now - (interval_minutes : ℚ) }
  ({ e with tasks := Function.update e.tasks aquarium_id (e.tasks aquarium_id ++ [stored]) },
   stored,
   [StoreOp.upsertTask { stored with id := none }])

/-- The dueness test of `SimulationEngine.due_tasks` (lines 170-171):
`now >= task.last_run_at + timedelta(minutes=task.interval_minutes)`. -/
def isDue (now : ℚ) (t : Task) : Prop :=
  t.last_run_at + (t.interval_minutes : ℚ) ≤ now

instance (now : ℚ) (t : Task) : Decidable (isDue now t) := by
  unfold isDue; infer_instance

/-- Embedding of `SimulationEngine.due_tasks` (lines 162-173): scans cached tasks of every
identified aquarium and pairs the due ones with their aquarium. -/
def due_tasks (now : ℚ) (e : Engine) : List (Task × Aquarium) :=
  e.aquariums.flatMap fun a =>
    match a.id with
    | none => []
    | some i => ((e.tasks i).filter fun t => decide (isDue now t)).map fun t => (t, a)

/-- Embedding of `SimulationEngine.mark_task_done` (lines 175-182), acting on the task
value: an unidentified task is first upserted (receiving `newId`), then the
last-run timestamp is set to `now` in memory and in the store. -/
def mark_task_done (now : ℚ) (newId : Nat) (t : Task) : Task × List StoreOp :=
  match t.id with
  | none =>
    ({ t with id := some newId, last_run_at := now },
     [StoreOp.upsertTask t, StoreOp.updateTaskTimestamp newId now])
  | some i =>
    ({ t with last_run_at := now }, [StoreOp.updateTaskTimestamp i now])

/-- Embedding of `Database.refresh_aquarium_environment` (`app/database.py` lines 213-228):
applies the temperature delta unclamped and the cleanliness delta clamped to
[0, 100]. -/
noncomputable def refresh_aquarium_environment (a : Aquarium)
    (temperature_delta cleanliness_delta : ℝ) : Aquarium :=
  { a with
    current_temperature := a.current_temperature + temperature_delta,
    cleanliness := max 0 (min 100 (a.cleanliness + cleanliness_delta)) }

/-- How one pass of the tick loop transforms a single cached aquarium:
unidentified aquariums are skipped, identified ones get the temperature and
cleanliness update. -/
noncomputable def tickMapped (minutes : ℝ) (a : Aquarium) : Aquarium :=
  match a.id with
  | none => a
  | some _ => tickAquarium minutes a

/-- Spec §3 aquarium invariant: `0 ≤ cleanliness ≤ 100`. -/
def aquariumInv (a : Aquarium) : Prop :=
  0 ≤ a.cleanliness ∧ a.cleanliness ≤ 100

/-- Spec §3 fish invariant: `0 ≤ hunger ≤ 100`, `10 ≤ health ≤ 100`. -/
def fishInv (f : Fish) : Prop :=
  0 ≤ f.hunger ∧ f.hunger ≤ 100 ∧ 10 ≤ f.health ∧ f.health ≤ 100

/-- Both invariants over the whole engine cache. -/
def engineInv (e : Engine) : Prop :=
  (∀ a ∈ e.aquariums, aquariumInv a) ∧ ∀ i : Nat, ∀ f ∈ e.fish i, fishInv f

/-- A concrete aquarium (id 1, target and current temperature 25, cleanliness
85) used to instantiate the scenario checks. -/
noncomputable def demoAquarium : Aquarium :=
  { id := some 1, name := "Main", target_temperature := 25,
    current_temperature := 25, cleanliness := 85, last_cleaned_at := 0 }

/-- A concrete fish (hunger 60, health 82) cached under aquarium 1. -/
noncomputable def demoFish : Fish :=
  { id := some 1, aquarium_id := 1, name := "Coral", species := "Clownfish",
    hunger := 60, health := 82, created_at := 0 }

/-- A concrete task (interval 240 minutes, last run at time 0) cached under
aquarium 1. -/
def demoTask : Task :=
  { id := some 1, aquarium_id := 1, kind := "alimentacao",
    interval_minutes := 240, last_run_at := 0 }

/-- A concrete engine caching `demoAquarium`, `demoFish` and `demoTask`, with
last tick at time 0. -/
noncomputable def demoEngine : Engine :=
  { aquariums := [demoAquarium],
    fish := fun i => if i = 1 then [demoFish] else [],
    tasks := fun i => if i = 1 then [demoTask] else [],
    last_tick := 0 }

theorem tickAquariums_fst (minutes : ℝ) (as : List Aquarium) (fm : Nat → List Fish) :
    (tickAquariums minutes as fm).1 = as.map (tickMapped minutes) := by
  induction as generalizing fm with
  | nil => rfl
  | cons a rest ih =>
    cases h : a.id with
    | none => simp [tickAquariums, h, tickMapped, ih]
    | some i => simp [tickAquariums, h, tickMapped, ih]

theorem tickAquariums_fish_stable (minutes : ℝ) (as : List Aquarium)
    (fm : Nat → List Fish) (i : Nat) (h : ∀ b ∈ as, b.id ≠ some i) :
    (tickAquariums minutes as fm).2.1 i = fm i := by
  induction as generalizing fm with
  | nil => rfl
  | cons a rest ih =>
    cases ha : a.id with
    | none =>
      simp only [tickAquariums, ha]
      exact ih fm fun b hb => h b (List.mem_cons_of_mem _ hb)
    | some j =>
      simp only [tickAquariums, ha]
      rw [ih _ fun b hb => h b (List.mem_cons_of_mem _ hb)]
      have hji : j ≠ i := by
        intro hji
        exact h a (List.mem_cons_self a rest) (hji ▸ ha)
      exact Function.update_noteq (Ne.symm hji) _ _

theorem tickAquariums_fish_at (minutes : ℝ) (l1 l2 : List Aquarium) (a : Aquarium)
    (fm : Nat → List Fish) (i : Nat) (hid : a.id = some i)
    (h1 : ∀ b ∈ l1, b.id ≠ some i) (h2 : ∀ b ∈ l2, b.id ≠ some i) :
    (tickAquariums minutes (l1 ++ a :: l2) fm).2.1 i =
      (fm i).map (tickFish minutes (tickAquarium minutes a)) := by
  induction l1 generalizing fm with
  | nil =>
    simp only [List.nil_append, tickAquariums, hid]
    rw [tickAquariums_fish_stable _ _ _ _ h2]
    simp [Function.update]
  | cons b rest ih =>
    have hb : b.id ≠ some i := h1 b (List.mem_cons_self b rest)
    have hrest : ∀ c ∈ rest, c.id ≠ some i := fun c hc => h1 c (List.mem_cons_of_mem _ hc)
    cases hbid : b.id with
    | none =>
      simp only [List.cons_append, tickAquariums, hbid]
      exact ih fm hrest
    | some j =>
      have hji : j ≠ i := by
        intro hji
        exact hb (hji ▸ hbid)
      simp only [List.cons_append, tickAquariums, hbid, List.append_eq]
      rw [ih _ hrest, Function.update_noteq (Ne.symm hji)]

theorem updateFirst_of_none (p : Aquarium → Bool) (g : Aquarium → Aquarium)
    (l : List Aquarium) (h : ∀ b ∈ l, p b = false) :
    updateFirst p g l = (l, none) := by
  induction l with
  | nil => rfl
  | cons a rest ih =>
    have ha : p a = false := h a (List.mem_cons_self a rest)
    simp only [updateFirst, ha]
    rw [ih fun b hb => h b (List.mem_cons_of_mem _ hb)]
    simp

theorem updateFirst_of_split (p : Aquarium → Bool) (g : Aquarium → Aquarium)
    (l1 l2 : List Aquarium) (a : Aquarium) (h1 : ∀ b ∈ l1, p b = false)
    (ha : p a = true) :
    updateFirst p g (l1 ++ a :: l2) = (l1 ++ g a :: l2, some (g a)) := by
  induction l1 with
  | nil => simp [updateFirst, ha]
  | cons b rest ih =>
    have hb : p b = false := h1 b (List.mem_cons_self b rest)
    have ih' := ih fun c hc => h1 c (List.mem_cons_of_mem _ hc)
    simp [updateFirst, hb, ih']

theorem updateFirst_mem (p : Aquarium → Bool) (g : Aquarium → Aquarium)
    (l : List Aquarium) (b : Aquarium) (hb : b ∈ (updateFirst p g l).1) :
    b ∈ l ∨ ∃ a ∈ l, b = g a := by
  induction l with
  | nil => simp [updateFirst] at hb
  | cons a rest ih =>
    by_cases hp : p a
    · simp only [updateFirst, hp, if_pos] at hb
      rcases List.mem_cons.mp hb with h | h
      · exact Or.inr ⟨a, List.mem_cons_self a rest, h⟩
      · exact Or.inl (List.mem_cons_of_mem _ h)
    · simp only [updateFirst, hp, if_neg, not_false_iff] at hb
      rcases List.mem_cons.mp hb with h | h
      · exact Or.inl (h ▸ List.mem_cons_self a rest)
      · rcases ih h with h' | ⟨c, hc, hcb⟩
        · exact Or.inl (List.mem_cons_of_mem _ h')
        · exact Or.inr ⟨c, List.mem_cons_of_mem _ hc, hcb⟩

theorem mem_due_tasks (now : ℚ) (e : Engine) (t : Task) (a : Aquarium) (i : Nat)
    (ha : a ∈ e.aquariums) (hid : a.id = some i) (ht : t ∈ e.tasks i) :
    (t, a) ∈ due_tasks now e ↔ isDue now t := by
  constructor
  · intro hmem
    rcases List.mem_flatMap.mp hmem with ⟨b, _, hb⟩
    cases hbid : b.id with
    | none => simp [hbid] at hb
    | some j =>
      simp only [hbid] at hb
      rcases List.mem_map.mp hb with ⟨t', ht', he⟩
      have : t' = t := congrArg Prod.fst he
      subst this
      exact of_decide_eq_true (List.mem_filter.mp ht').2
  · intro hdue
    refine List.mem_flatMap.mpr ⟨a, ha, ?_⟩
    simp only [hid]
    exact List.mem_map.mpr ⟨t, List.mem_filter.mpr ⟨ht, decide_eq_true hdue⟩, rfl⟩

theorem tick_of_nonpos (now : ℚ) (e : Engine) (h : now - e.last_tick ≤ 0) :
    tick now e = (e, []) := by
  simp [tick, h]

theorem feed_fish_fish (i j : Nat) (e : Engine) :
    (feed_fish i e).1.fish j =
      if j = i then
        (e.fish i).map fun f =>
          { f with hunger := max 0 (f.hunger - 45), health := min 100 (f.health + 8) }
      else e.fish j := by
  unfold feed_fish
  cases hfe : e.fish i with
  | nil =>
    by_cases hij : j = i
    · subst hij
      simp [hfe]
    · simp [hfe, hij]
  | cons f fs =>
    by_cases hij : j = i
    · subst hij
      simp [hfe, Function.update_same]
    · simp [hfe, hij, Function.update_noteq hij]

theorem feed_fish_aquariums (i : Nat) (e : Engine) :
    (feed_fish i e).1.aquariums = e.aquariums := by
  unfold feed_fish
  by_cases hemp : ((e.fish i).map fun f =>
      { f with hunger := max 0 (f.hunger - 45), health := min 100 (f.health + 8) }).isEmpty
  · simp [hemp]
  · simp [hemp]

theorem tick_pos_aquariums (now : ℚ) (e : Engine) (h : ¬ now - e.last_tick ≤ 0) :
    (tick now e).1.aquariums =
      e.aquariums.map (tickMapped ((now - e.last_tick : ℚ) : ℝ)) := by
  unfold tick
  rw [if_neg h]
  exact tickAquariums_fst _ _ _

/-- C4: for every aquarium id and every fish cached for that aquarium, after
`feed_fish` the hunger of the fish equals `max 0 (hunger - 45)` and its health
equals `min 100 (health + 8)`. -/
theorem feed_fish_hunger_health (aquarium_id : Nat) (e : Engine) :
    (feed_fish aquarium_id e).1.fish aquarium_id =
      (e.fish aquarium_id).map fun f =>
        { f with hunger := max 0 (f.hunger - 45), health := min 100 (f.health + 8) } := by
  rw [feed_fish_fish aquarium_id aquarium_id e, if_pos rfl]

/-- C7: a tick whose elapsed time is non-positive changes no engine state and
issues no store write, and a second tick at the time of the first is always a
no-op. -/
theorem tick_nonpositive_noop (now : ℚ) (e : Engine) :
    (now - e.last_tick ≤ 0 → tick now e = (e, [])) ∧
      tick now (tick now e).1 = ((tick now e).1, []) := by
  refine ⟨fun h => tick_of_nonpos now e h, ?_⟩
  apply tick_of_nonpos
  by_cases h : now - e.last_tick ≤ 0
  · rw [tick_of_nonpos now e h]
    exact h
  · have h1 : (tick now e).1.last_tick = now := by simp [tick, h]
    rw [h1]
    simp

/-- C7 witness: on the concrete engine, a tick with zero elapsed time returns
the engine unchanged with no store writes. -/
theorem tick_nonpositive_noop_witness :
    (0 : ℚ) - demoEngine.last_tick ≤ 0 ∧ tick 0 demoEngine = (demoEngine, []) := by
  have h : (0 : ℚ) - demoEngine.last_tick ≤ 0 := by simp [demoEngine]
  exact ⟨h, (tick_nonpositive_noop 0 demoEngine).1 h⟩

/-- C2: for every tick with positive elapsed time, every aquarium of the cache
is replaced by its `tickMapped` image, and for every identified aquarium that
cleanliness of that image is `max 0 (cleanliness - 0.18 * Δ)`. -/
theorem tick_cleanliness_decay (now : ℚ) (e : Engine) (h : 0 < now - e.last_tick) :
    (tick now e).1.aquariums =
        e.aquariums.map (tickMapped ((now - e.last_tick : ℚ) : ℝ)) ∧
      ∀ a ∈ e.aquariums, ∀ i : Nat, a.id = some i →
        (tickMapped ((now - e.last_tick : ℚ) : ℝ) a).cleanliness =
          max 0 (a.cleanliness - 0.18 * ((now - e.last_tick : ℚ) : ℝ)) := by
  have hg : ¬ (now - e.last_tick ≤ 0) := not_le.mpr h
  constructor
  · simp [tick, hg, tickAquariums_fst]
  · intro a _ i hid
    simp [tickMapped, hid, tickAquarium, mul_comm]

/-- C2 witness (Scenario B): the demo aquarium has cleanliness 85; a tick with
50 elapsed minutes maps it to cleanliness exactly 76. -/
theorem tick_cleanliness_decay_witness :
    (tick 50 demoEngine).1.aquariums =
        demoEngine.aquariums.map (tickMapped ((50 - demoEngine.last_tick : ℚ) : ℝ)) ∧
      (tickMapped ((50 - demoEngine.last_tick : ℚ) : ℝ) demoAquarium).cleanliness = 76 := by
  have h := tick_cleanliness_decay 50 demoEngine (by simp [demoEngine])
  refine ⟨h.1, ?_⟩
  rw [h.2 demoAquarium (by simp [demoEngine]) 1 rfl]
  norm_num [demoAquarium, demoEngine]

/-- C1: for every tick with positive elapsed time Δ and every fish cached for
an aquarium whose id `i` occurs once in the cache, the hunger of the fish becomes
`min 100 (hunger + Δ · 0.45)` and its health is reduced by the sum of the
three stressor penalties — computed from the updated hunger, the updated
current-vs-target temperature gap and the updated cleanliness — clamped to
[10, 100]. -/
theorem tick_fish_update (now : ℚ) (e : Engine) (a a' : Aquarium) (i : Nat)
    (l1 l2 : List Aquarium) (m : ℝ)
    (hm : m = ((now - e.last_tick : ℚ) : ℝ))
    (ha' : a' = tickAquarium m a)
    (hsplit : e.aquariums = l1 ++ a :: l2) (hid : a.id = some i)
    (h1 : ∀ b ∈ l1, b.id ≠ some i) (h2 : ∀ b ∈ l2, b.id ≠ some i)
    (h : 0 < now - e.last_tick) :
    (tick now e).1.fish i = (e.fish i).map fun f =>
      { f with
        hunger := min 100 (f.hunger + m * 0.45),
        health := max 10 (min 100 (f.health -
          ((if min 100 (f.hunger + m * 0.45) > 70
              then (min 100 (f.hunger + m * 0.45) - 70) * 0.02 * m else 0) +
           (if |a'.current_temperature - a'.target_temperature| > 2.5
              then (|a'.current_temperature - a'.target_temperature| - 2.5) * 0.5 * m
              else 0) +
           (if a'.cleanliness < 40 then (40 - a'.cleanliness) * 0.01 * m else 0)))) } := by
  subst hm ha'
  have hg : ¬ (now - e.last_tick ≤ 0) := not_le.mpr h
  have hfish : (tick now e).1.fish =
      (tickAquariums ((now - e.last_tick : ℚ) : ℝ) e.aquariums e.fish).2.1 := by
    simp [tick, hg]
  rw [hfish, hsplit, tickAquariums_fish_at _ _ _ _ _ _ hid h1 h2]
  rfl

/-- C1 witness (Scenario C): on the demo engine (hunger 60, tick of 20
minutes, temperatures converged, cleanliness far above 40) the cached fish
ends with hunger `min 100 (60 + 0.45 × 20) = 69` and unchanged health 82. -/
theorem tick_fish_update_witness :
    (tick 20 demoEngine).1.fish 1 = [{ demoFish with hunger := 69, health := 82 }] := by
  have h := tick_fish_update 20 demoEngine demoAquarium
    (tickAquarium ((20 - demoEngine.last_tick : ℚ) : ℝ) demoAquarium) 1 [] []
    ((20 - demoEngine.last_tick : ℚ) : ℝ) rfl rfl (by simp [demoEngine]) rfl
    (by simp) (by simp) (by simp [demoEngine])
  rw [h]
  have hfm : demoEngine.fish 1 = [demoFish] := by simp [demoEngine]
  rw [hfm]
  have hcur : (tickAquarium ((20 - demoEngine.last_tick : ℚ) : ℝ)
      demoAquarium).current_temperature = 25 := by
    simp [tickAquarium, demoAquarium]
  have hclean : (tickAquarium ((20 - demoEngine.last_tick : ℚ) : ℝ)
      demoAquarium).cleanliness = 81.4 := by
    simp [tickAquarium, demoAquarium, demoEngine]
    norm_num
  have htar : (tickAquarium ((20 - demoEngine.last_tick : ℚ) : ℝ)
      demoAquarium).target_temperature = 25 := rfl
  simp only [List.map_cons, List.map_nil, hcur, htar, hclean]
  norm_num [demoFish, demoEngine]

/-- C3: for every tick with positive elapsed time Δ, the current temperature
of every cached aquarium changes by the fraction `1 - e^(-Δ/18)` of the gap to the
target, the target itself is unchanged, the distance to the target strictly
decreases whenever current ≠ target, and the current temperature is unchanged
exactly when it already equals the target. -/
theorem tick_temperature_approach (now : ℚ) (e : Engine) (h : 0 < now - e.last_tick) :
    (tick now e).1.aquariums =
        e.aquariums.map (tickMapped ((now - e.last_tick : ℚ) : ℝ)) ∧
      ∀ a ∈ e.aquariums, ∀ i : Nat, a.id = some i →
        (tickMapped ((now - e.last_tick : ℚ) : ℝ) a).current_temperature =
            a.current_temperature +
              (a.target_temperature - a.current_temperature) *
                (1 - Real.exp (-((now - e.last_tick : ℚ) : ℝ) / 18)) ∧
          (tickMapped ((now - e.last_tick : ℚ) : ℝ) a).target_temperature =
            a.target_temperature ∧
          (a.current_temperature ≠ a.target_temperature →
            |(tickMapped ((now - e.last_tick : ℚ) : ℝ) a).current_temperature -
                a.target_temperature| <
              |a.current_temperature - a.target_temperature|) ∧
          ((tickMapped ((now - e.last_tick : ℚ) : ℝ) a).current_temperature =
              a.current_temperature ↔
            a.current_temperature = a.target_temperature) := by
  have hg : ¬ (now - e.last_tick ≤ 0) := not_le.mpr h
  have hm : (0 : ℝ) < ((now - e.last_tick : ℚ) : ℝ) := by exact_mod_cast h
  set m : ℝ := ((now - e.last_tick : ℚ) : ℝ) with hmdef
  have hexp_pos : 0 < Real.exp (-m / 18) := Real.exp_pos _
  have hexp_lt : Real.exp (-m / 18) < 1 := by
    rw [Real.exp_lt_one_iff]
    linarith
  refine ⟨tick_pos_aquariums now e hg, ?_⟩
  intro a _ i hid
  have hcur : (tickMapped m a).current_temperature =
      a.current_temperature +
        (a.target_temperature - a.current_temperature) * (1 - Real.exp (-m / 18)) := by
    simp [tickMapped, hid, tickAquarium]
  refine ⟨hcur, by simp [tickMapped, hid, tickAquarium], ?_, ?_⟩
  · intro hne
    rw [hcur]
    have hrw : a.current_temperature +
        (a.target_temperature - a.current_temperature) * (1 - Real.exp (-m / 18)) -
          a.target_temperature =
        (a.current_temperature - a.target_temperature) * Real.exp (-m / 18) := by
      ring
    rw [hrw, abs_mul, abs_of_pos hexp_pos]
    have habs : 0 < |a.current_temperature - a.target_temperature| :=
      abs_pos.mpr (sub_ne_zero.mpr hne)
    calc |a.current_temperature - a.target_temperature| * Real.exp (-m / 18)
        < |a.current_temperature - a.target_temperature| * 1 := by
          exact mul_lt_mul_of_pos_left hexp_lt habs
      _ = |a.current_temperature - a.target_temperature| := mul_one _
  · rw [hcur]
    constructor
    · intro heq
      have hzero : (a.target_temperature - a.current_temperature) *
          (1 - Real.exp (-m / 18)) = 0 := by linarith
      rcases mul_eq_zero.mp hzero with hz | hz
      · have := sub_eq_zero.mp hz
        exact this.symm
      · exfalso
        have : Real.exp (-m / 18) = 1 := by linarith
        linarith
    · intro heq
      rw [heq]
      ring

/-- C3 witness (Scenario A): the demo aquarium was created with current
temperature equal to its 25.0° target; a tick of 18 minutes leaves the current
temperature unchanged. -/
theorem tick_temperature_approach_witness :
    (tick 18 demoEngine).1.aquariums =
        demoEngine.aquariums.map (tickMapped ((18 - demoEngine.last_tick : ℚ) : ℝ)) ∧
      (tickMapped ((18 - demoEngine.last_tick : ℚ) : ℝ) demoAquarium).current_temperature =
        demoAquarium.current_temperature := by
  have h := tick_temperature_approach 18 demoEngine (by simp [demoEngine])
  refine ⟨h.1, ?_⟩
  exact (h.2 demoAquarium (by simp [demoEngine]) 1 rfl).2.2.2.mpr (by simp [demoAquarium])

/-- C5: a cached task appears in `due_tasks` paired with its cached aquarium
if and only if `now ≥ last_run_at + interval_minutes`. -/
theorem due_tasks_mem_iff (now : ℚ) (e : Engine) (t : Task) (a : Aquarium) (i : Nat)
    (ha : a ∈ e.aquariums) (hid : a.id = some i) (ht : t ∈ e.tasks i) :
    (t, a) ∈ due_tasks now e ↔ now ≥ t.last_run_at + (t.interval_minutes : ℚ) :=
  mem_due_tasks now e t a i ha hid ht

/-- C5 witness: on the demo engine at time 300 the demo task (last run 0,
interval 240) is due and indeed appears in `due_tasks`. -/
theorem due_tasks_mem_iff_witness :
    (demoTask, demoAquarium) ∈ due_tasks 300 demoEngine ∧
      (300 : ℚ) ≥ demoTask.last_run_at + (demoTask.interval_minutes : ℚ) := by
  have hdue : (300 : ℚ) ≥ demoTask.last_run_at + (demoTask.interval_minutes : ℚ) := by
    norm_num [demoTask]
  exact ⟨(due_tasks_mem_iff 300 demoEngine demoTask demoAquarium 1
    (by simp [demoEngine]) rfl (by simp [demoEngine])).mpr hdue, hdue⟩

/-- C6: a task created by `add_task` has its last-run timestamp backdated by
its interval, so it immediately appears in `due_tasks` paired with its cached
aquarium; `mark_task_done` then sets the last-run timestamp to now in memory
and issues the corresponding store write, and the task is due again exactly
when a full interval has elapsed since that moment. -/
theorem add_task_due_mark_done (e : Engine) (a : Aquarium) (i newId newId2 : Nat)
    (kind : String) (interval : ℤ) (now now2 : ℚ)
    (ha : a ∈ e.aquariums) (hid : a.id = some i) :
    (add_task i kind interval now newId e).2.1.last_run_at = now - (interval : ℚ) ∧
      ((add_task i kind interval now newId e).2.1, a) ∈
        due_tasks now (add_task i kind interval now newId e).1 ∧
      (mark_task_done now2 newId2 (add_task i kind interval now newId e).2.1).1.last_run_at
        = now2 ∧
      (mark_task_done now2 newId2 (add_task i kind interval now newId e).2.1).2
        = [StoreOp.updateTaskTimestamp newId now2] ∧
      ∀ mtime : ℚ,
        isDue mtime (mark_task_done now2 newId2 (add_task i kind interval now newId e).2.1).1
          ↔ now2 + (interval : ℚ) ≤ mtime := by
  refine ⟨rfl, ?_, rfl, rfl, ?_⟩
  · have hmem :
        (add_task i kind interval now newId e).2.1 ∈
          (add_task i kind interval now newId e).1.tasks i := by
      simp [add_task, Function.update_same]
    refine (mem_due_tasks now (add_task i kind interval now newId e).1
      (add_task i kind interval now newId e).2.1 a i ?_ hid hmem).mpr ?_
    · simpa [add_task] using ha
    · show (add_task i kind interval now newId e).2.1.last_run_at +
        ((add_task i kind interval now newId e).2.1.interval_minutes : ℚ) ≤ now
      simp [add_task]
  · intro mtime
    show now2 + (interval : ℚ) ≤ mtime ↔ now2 + (interval : ℚ) ≤ mtime
    exact Iff.rfl

/-- C6 witness: on the demo engine at time 0, a task with interval 240 added
for aquarium 1 is immediately due; marking it done at time 10 sets its
last-run timestamp to 10 (issuing the store write) and it is not due at time
100 but is due at time 250. -/
theorem add_task_due_mark_done_witness :
    (add_task 1 "limpeza" 240 0 7 demoEngine).2.1.last_run_at = 0 - (240 : ℚ) ∧
      ((add_task 1 "limpeza" 240 0 7 demoEngine).2.1, demoAquarium) ∈
        due_tasks 0 (add_task 1 "limpeza" 240 0 7 demoEngine).1 ∧
      (mark_task_done 10 8 (add_task 1 "limpeza" 240 0 7 demoEngine).2.1).1.last_run_at
        = 10 ∧
      ¬ isDue 100 (mark_task_done 10 8 (add_task 1 "limpeza" 240 0 7 demoEngine).2.1).1 ∧
      isDue 250 (mark_task_done 10 8 (add_task 1 "limpeza" 240 0 7 demoEngine).2.1).1 := by
  have h := add_task_due_mark_done demoEngine demoAquarium 1 7 8 "limpeza" 240 0 10
    (by simp [demoEngine]) rfl
  refine ⟨h.1, h.2.1, h.2.2.1, ?_, ?_⟩
  · rw [h.2.2.2.2 100]
    norm_num
  · rw [h.2.2.2.2 250]
    norm_num

/-- C8 counterexample: on the concrete engine, which caches no aquarium with
id 2, `clean_aquarium`, `adjust_temperature` and `feed_fish` all return
normally with the state unchanged and no store write — no `NotFoundError` (or
any other error) is raised; indeed no such exception exists anywhere in the
code. -/
theorem missing_id_silent_noop_cex :
    clean_aquarium 2 7 demoEngine = (demoEngine, []) ∧
      adjust_temperature 2 30 demoEngine = (demoEngine, []) ∧
      register_temperature 2 30 demoEngine = (demoEngine, []) ∧
      feed_fish 2 demoEngine = (demoEngine, []) :=
  ⟨rfl, rfl, rfl, rfl⟩

/-- C8 amended: an engine operation referencing an aquarium id absent from the
in-memory cache is a silent no-op — it changes no engine state and performs no
store write (the code defines no `NotFoundError`). -/
theorem missing_id_silent_noop (e : Engine) (i : Nat) (now : ℚ) (t v : ℝ)
    (h : ∀ a ∈ e.aquariums, a.id ≠ some i) (hf : e.fish i = []) :
    clean_aquarium i now e = (e, []) ∧
      adjust_temperature i t e = (e, []) ∧
      register_temperature i v e = (e, []) ∧
      feed_fish i e = (e, []) := by
  have hp : ∀ a ∈ e.aquariums, (decide (a.id = some i)) = false := fun a hamem =>
    decide_eq_false (h a hamem)
  refine ⟨?_, ?_, ?_, ?_⟩
  · simp [clean_aquarium, updateFirst_of_none _ _ _ hp]
  · simp [adjust_temperature, updateFirst_of_none _ _ _ hp]
  · simp [register_temperature, updateFirst_of_none _ _ _ hp]
  · simp [feed_fish, hf]

/-- C8 witness: the amended no-op property instantiated on the concrete
engine, whose only cached aquarium has id 1 ≠ 3 and whose fish cache at id 3
is empty. -/
theorem missing_id_silent_noop_witness :
    clean_aquarium 3 7 demoEngine = (demoEngine, []) ∧
      adjust_temperature 3 30 demoEngine = (demoEngine, []) ∧
      register_temperature 3 30 demoEngine = (demoEngine, []) ∧
      feed_fish 3 demoEngine = (demoEngine, []) :=
  missing_id_silent_noop demoEngine 3 7 30 30
    (by simp [demoEngine, demoAquarium]) (by simp [demoEngine])

/-- C10: `register_temperature` on an id absent from the cache changes
nothing; on a cached id it overwrites exactly the current temperature of the
first matching aquarium with the given value (no clamping, no
exponential-approach step), persists that aquarium, and leaves every other
field and the rest of the engine unchanged. -/
theorem register_temperature_spec (e : Engine) (i : Nat) (v : ℝ)
    (l1 l2 : List Aquarium) (a : Aquarium) :
    ((∀ b ∈ e.aquariums, b.id ≠ some i) → register_temperature i v e = (e, [])) ∧
      (e.aquariums = l1 ++ a :: l2 → (∀ b ∈ l1, b.id ≠ some i) → a.id = some i →
        register_temperature i v e =
          ({ e with aquariums := l1 ++ { a with current_temperature := v } :: l2 },
           [StoreOp.upsertAquarium { a with current_temperature := v }])) := by
  constructor
  · intro h
    have hp : ∀ b ∈ e.aquariums, (decide (b.id = some i)) = false := fun b hb =>
      decide_eq_false (h b hb)
    simp [register_temperature, updateFirst_of_none _ _ _ hp]
  · intro hsplit h1 hid
    have hp1 : ∀ b ∈ l1, (decide (b.id = some i)) = false := fun b hb =>
      decide_eq_false (h1 b hb)
    have hpa : (decide (a.id = some i)) = true := decide_eq_true hid
    simp [register_temperature, hsplit, updateFirst_of_split _ _ _ _ _ hp1 hpa]

/-- C10 witness: registering temperature 30 for the unknown id 2 changes
nothing, while registering it for the cached id 1 overwrites only the demo
current temperature of the demo aquarium and issues the upsert. -/
theorem register_temperature_spec_witness :
    register_temperature 2 30 demoEngine = (demoEngine, []) ∧
      register_temperature 1 30 demoEngine =
        ({ demoEngine with
            aquariums := [{ demoAquarium with current_temperature := 30 }] },
         [StoreOp.upsertAquarium { demoAquarium with current_temperature := 30 }]) := by
  constructor
  · exact (register_temperature_spec demoEngine 2 30 [] [] demoAquarium).1
      (by simp [demoEngine, demoAquarium])
  · have h := (register_temperature_spec demoEngine 1 30 [] [] demoAquarium).2
      (by simp [demoEngine]) (by simp) rfl
    simpa using h

theorem tickFish_inv (m : ℝ) (hm : 0 ≤ m) (a : Aquarium) (f : Fish)
    (hf : fishInv f) : fishInv (tickFish m a f) := by
  obtain ⟨h0, h100, hlo, hhi⟩ := hf
  refine ⟨?_, ?_, ?_, ?_⟩
  · have h45 : (0 : ℝ) ≤ m * 0.45 := by positivity
    exact le_min (by norm_num) (by linarith)
  · exact min_le_left _ _
  · exact le_max_left _ _
  · exact max_le (by norm_num) (le_trans (min_le_left _ _) (by norm_num))

theorem tickAquarium_inv (m : ℝ) (hm : 0 ≤ m) (a : Aquarium)
    (ha : aquariumInv a) : aquariumInv (tickAquarium m a) := by
  obtain ⟨h0, h100⟩ := ha
  constructor
  · exact le_max_left _ _
  · have : 0 ≤ m * 0.18 := by positivity
    exact max_le (by norm_num) (by simp [tickAquarium]; linarith)

theorem tickAquariums_inv (m : ℝ) (hm : 0 ≤ m) (as : List Aquarium)
    (fm : Nat → List Fish) (ha : ∀ a ∈ as, aquariumInv a)
    (hf : ∀ i : Nat, ∀ f ∈ fm i, fishInv f) :
    (∀ a ∈ (tickAquariums m as fm).1, aquariumInv a) ∧
      ∀ i : Nat, ∀ f ∈ (tickAquariums m as fm).2.1 i, fishInv f := by
  induction as generalizing fm with
  | nil => exact ⟨by simp [tickAquariums], hf⟩
  | cons a rest ih =>
    have harest : ∀ b ∈ rest, aquariumInv b := fun b hb => ha b (List.mem_cons_of_mem _ hb)
    have haa : aquariumInv a := ha a (List.mem_cons_self a rest)
    cases hida : a.id with
    | none =>
      have := ih fm harest hf
      simp only [tickAquariums, hida]
      exact ⟨fun b hb => by
        rcases List.mem_cons.mp hb with hb | hb
        · exact hb ▸ haa
        · exact this.1 b hb, this.2⟩
    | some j =>
      have hfm1 : ∀ i : Nat, ∀ f ∈
          (Function.update fm j ((fm j).map (tickFish m (tickAquarium m a)))) i,
          fishInv f := by
        intro i f hfmem
        by_cases hij : i = j
        · subst hij
          rw [Function.update_same] at hfmem
          rcases List.mem_map.mp hfmem with ⟨g, hg, hgf⟩
          exact hgf ▸ tickFish_inv m hm _ g (hf i g hg)
        · rw [Function.update_noteq hij] at hfmem
          exact hf i f hfmem
      have := ih _ harest hfm1
      simp only [tickAquariums, hida]
      exact ⟨fun b hb => by
        rcases List.mem_cons.mp hb with hb | hb
        · exact hb ▸ tickAquarium_inv m hm a haa
        · exact this.1 b hb, this.2⟩

/-- C9: assuming the cleanliness, hunger and health invariants hold on the
cached state, they are preserved by `tick`, `feed_fish`, `clean_aquarium`,
`create_aquarium`, `create_fish`, and by the store operation
`refresh_aquarium_environment`. -/
theorem operations_preserve_invariants (e : Engine) (now ts : ℚ)
    (i newA newF : Nat) (nm sp : String) (target td cd : ℝ) (a : Aquarium)
    (he : engineInv e) (ha : aquariumInv a) :
    engineInv (tick now e).1 ∧
      engineInv (feed_fish i e).1 ∧
      engineInv (clean_aquarium i ts e).1 ∧
      engineInv (create_aquarium nm target now newA e).1 ∧
      engineInv (create_fish i nm sp now newF e).1 ∧
      aquariumInv (refresh_aquarium_environment a td cd) := by
  obtain ⟨heA, heF⟩ := he
  refine ⟨?_, ?_, ?_, ?_, ?_, ?_⟩
  · by_cases hg : now - e.last_tick ≤ 0
    · rw [tick_of_nonpos now e hg]
      exact ⟨heA, heF⟩
    · have hm : (0 : ℝ) ≤ ((now - e.last_tick : ℚ) : ℝ) := by
        have : (0 : ℚ) ≤ now - e.last_tick := le_of_lt (lt_of_not_le hg)
        exact_mod_cast this
      have h := tickAquariums_inv ((now - e.last_tick : ℚ) : ℝ) hm e.aquariums e.fish heA heF
      unfold tick
      rw [if_neg hg]
      exact ⟨h.1, h.2⟩
  · refine ⟨by rw [feed_fish_aquariums]; exact heA, ?_⟩
    intro j g hg
    rw [feed_fish_fish i j e] at hg
    by_cases hij : j = i
    · rw [if_pos hij] at hg
      rcases List.mem_map.mp hg with ⟨x, hx, hxg⟩
      obtain ⟨h0, h100, hlo, hhi⟩ := heF i x hx
      subst hxg
      refine ⟨le_max_left _ _, max_le (by norm_num) (by linarith), ?_, min_le_left _ _⟩
      exact le_min (by norm_num) (by linarith)
    · rw [if_neg hij] at hg
      exact heF j g hg
  · refine ⟨?_, heF⟩
    intro b hb
    rcases updateFirst_mem _ _ _ b hb with hmem | ⟨c, hc, hbc⟩
    · exact heA b hmem
    · subst hbc
      exact ⟨by norm_num, by norm_num⟩
  · refine ⟨?_, ?_⟩
    · intro b hb
      rcases List.mem_append.mp hb with hmem | hmem
      · exact heA b hmem
      · rw [List.mem_singleton.mp hmem]
        exact ⟨by norm_num, by norm_num⟩
    · intro j g hg
      simp only [create_aquarium] at hg
      by_cases hij : j = newA
      · subst hij
        rw [Function.update_same] at hg
        simp at hg
      · rw [Function.update_noteq hij] at hg
        exact heF j g hg
  · refine ⟨heA, ?_⟩
    intro j g hg
    simp only [create_fish] at hg
    by_cases hij : j = i
    · subst hij
      rw [Function.update_same] at hg
      rcases List.mem_append.mp hg with hmem | hmem
      · exact heF j g hmem
      · rw [List.mem_singleton.mp hmem]
        exact ⟨by norm_num, by norm_num, by norm_num, by norm_num⟩
    · rw [Function.update_noteq hij] at hg
      exact heF j g hg
  · obtain ⟨h0, h100⟩ := ha
    exact ⟨le_max_left _ _, max_le (by norm_num) (min_le_left _ _)⟩

/-- C9 witness: the invariants hold on the concrete engine and aquarium, and
are preserved by a 20-minute tick (and the other operations) there. -/
theorem operations_preserve_invariants_witness :
    engineInv demoEngine ∧ aquariumInv demoAquarium ∧
      engineInv (tick 20 demoEngine).1 ∧
      engineInv (feed_fish 1 demoEngine).1 ∧
      engineInv (clean_aquarium 1 5 demoEngine).1 ∧
      aquariumInv (refresh_aquarium_environment demoAquarium 2 (-3)) := by
  have hinv : engineInv demoEngine := by
    constructor
    · intro b hb
      rw [show demoEngine.aquariums = [demoAquarium] from rfl] at hb
      rw [List.mem_singleton.mp hb]
      constructor <;> norm_num [demoAquarium]
    · intro j g hg
      rw [show demoEngine.fish = fun i => if i = 1 then [demoFish] else [] from rfl] at hg
      by_cases hj : j = 1
      · subst hj
        simp only [if_pos rfl] at hg
        rw [List.mem_singleton.mp hg]
        refine ⟨by norm_num [demoFish], by norm_num [demoFish], by norm_num [demoFish],
          by norm_num [demoFish]⟩
      · simp [hj] at hg
  have hainv : aquariumInv demoAquarium := by
    constructor <;> norm_num [demoAquarium]
  have h := operations_preserve_invariants demoEngine 20 5 1 9 9 "N" "S" 24 2 (-3)
    demoAquarium hinv hainv
  exact ⟨hinv, hainv, h.1, h.2.1, h.2.2.1, h.2.2.2.2.2⟩

end Aqua
